import Mathlib

/-!
Verification development for the kratos execution engine: a registry of
ephemeral, model-bound AI agents run one task at a time inside freshly
created, isolated sandboxes.  The Docker image template is embedded from
src/kratos/Dockerfile.template; the engine's operations (submit, invoke,
remove, extract, build, sandbox run) are modelled from the specification,
since the engine module itself is not among the shipped source files.
-/

namespace Kratos

/-! ## Dockerfile template (from src/kratos/Dockerfile.template) -/

/-- A single Dockerfile instruction, structurally. -/
inductive DockerInstr where
  | from_ (image : String)
  | run (cmd : String)
  | workdir (path : String)
  | copy (src dst : String)
  | label (key value : String)
  | entrypoint (args : List String)
deriving DecidableEq, Repr

/-- The fixed base-package install command of line 9 of the template. -/
def basePackagesCmd : String := "uv add agno cloudpickle openai lmstudio"

/-- The four base packages installed by every image build. -/
def basePackages : List String := ["agno", "cloudpickle", "openai", "lmstudio"]

/-- Modelled from the spec: the builder that substitutes the
DEPENDENCIES_INSTALL placeholder of the template is not among the source
files; per the spec the declared extra dependencies are each installed by
an additional uv-add instruction. -/
def dependenciesInstall (deps : List String) : List DockerInstr :=
  deps.map (fun d => DockerInstr.run ("uv add " ++ d))

/-- The rendered Dockerfile, line by line from src/kratos/Dockerfile.template:
base image, workdir setup, uv init, base package install, the substituted
extra-dependency section, the agent payload and execute script copies, the
single model-name label, and the entrypoint. -/
def renderDockerfile (modelName : String) (deps : List String) : List DockerInstr :=
  [ DockerInstr.from_ "ghcr.io/astral-sh/uv:debian-slim",
    DockerInstr.run "mkdir -p /workdir",
    DockerInstr.workdir "/workdir",
    DockerInstr.run "uv init",
    DockerInstr.run basePackagesCmd ]
  ++ dependenciesInstall deps
  ++ [ DockerInstr.copy "agent.pkl" "/workdir/agent.pkl",
       DockerInstr.copy "execute.py" "/workdir/execute.py",
       DockerInstr.label "kratos.model_name" modelName,
       DockerInstr.entrypoint ["uv", "run", "python", "/workdir/execute.py"] ]

/-- Recognizes the kratos.model_name label instruction. -/
def isModelNameLabel : DockerInstr → Bool
  | DockerInstr.label key _ => key == "kratos.model_name"
  | _ => false

/-! ## Error taxonomy (spec section 7) -/

/-- Modelled from the spec: the error taxonomy of the engine, whose module is
not among the source files.  Cancelled covers the external-cancellation
outcome of section 5. -/
inductive KError where
  | DefinitionInvalid
  | BuildFailed
  | AgentNotFound
  | AgentNotReady
  | Timeout
  | BootFailure
  | TaskExecutionError (msg : String)
  | Cancelled
deriving DecidableEq, Repr

/-- An agent definition payload: opaque serialized bytes. -/
abbrev Definition := List Nat

/-- A model reference extracted from a definition. -/
abbrev ModelRef := String

/-! ## Dependency Extractor (spec section 4.2, modelled) -/

/-- Decodes one length-prefixed string from a byte stream. -/
def decodeStr : List Nat → Option (String × List Nat)
  | [] => none
  | len :: rest =>
    if len ≤ rest.length then
      some (String.mk ((rest.take len).map Char.ofNat), rest.drop len)
    else none

/-- Decodes a given number of length-prefixed strings from a byte stream. -/
def decodeRefs : Nat → List Nat → Option (List ModelRef × List Nat)
  | 0, bytes => some ([], bytes)
  | n + 1, bytes =>
    match decodeStr bytes with
    | none => none
    | some (s, rest) =>
      match decodeRefs n rest with
      | none => none
      | some (ss, rest2) => some (s :: ss, rest2)

/-- Modelled from the spec: the Dependency Extractor's parser is not among
the source files; per section 9 the definition payload is an explicit
versioned schema.  Here: a version tag byte 1, a reference count, then that
many length-prefixed model references, consuming the whole payload. -/
def parseDefinition (d : Definition) : Option (List ModelRef) :=
  match d with
  | 1 :: n :: rest =>
    match decodeRefs n rest with
    | some (refs, []) => some refs
    | _ => none
  | _ => none

/-- Modelled from the spec: Dependency Extractor extract, a pure static
analysis over the definition payload; a malformed definition fails with
DefinitionInvalid rather than guessing a reference set. -/
def extract (d : Definition) : Except KError (List ModelRef) :=
  match parseDefinition d with
  | some refs => Except.ok refs
  | none => Except.error KError.DefinitionInvalid

/-! ## Content fingerprint and image handles (spec sections 3 and 4.3) -/

/-- Inserts a dependency into a sorted dependency list. -/
def insertDep (d : String) : List String → List String
  | [] => [d]
  | x :: xs => if compare d x = Ordering.lt then d :: x :: xs else x :: insertDep d xs

/-- Sorts the declared dependency list, as the fingerprint is computed over
the sorted dependency list. -/
def sortDeps : List String → List String
  | [] => []
  | x :: xs => insertDep x (sortDeps xs)

/-- Modelled from the spec: a content fingerprint is a deterministic digest
over base runtime version, sorted dependency list and definition bytes;
modelled as the triple itself (a collision-free digest). -/
abbrev Fingerprint := String × List String × List Nat

/-- The content fingerprint of a build input. -/
def fingerprint (baseVersion : String) (d : Definition) (deps : List String) : Fingerprint :=
  (baseVersion, sortDeps deps, d)

/-- An image handle; its identity is the content fingerprint (spec section 3). -/
abbrev ImageHandle := Fingerprint

/-! ## Records and state (spec section 3) -/

/-- Build status of an agent record. -/
inductive AgentStatus where
  | Pending
  | Built
  | Failed
deriving DecidableEq, Repr

/-- Modelled from the spec: an AgentRecord of the Agent Definition Store. -/
structure AgentRecord where
  definition : Definition
  dependencies : List String
  modelRefs : List ModelRef
  imageHandle : Option ImageHandle
  status : AgentStatus
deriving DecidableEq, Repr

/-- The terminal outcome of one sandboxed task execution, chosen by the
environment: normal completion, a task-level error, a timeout, a boot
failure, or an external cancellation. -/
inductive RunOutcome where
  | success (result : String)
  | taskError (msg : String)
  | timeout
  | bootFailure
  | cancelled
deriving DecidableEq, Repr

/-- Per-invocation resource limits. -/
structure Limits where
  timeoutSeconds : Nat
  maxMemory : Nat
deriving DecidableEq, Repr

/-- Modelled from the spec: an InvocationRecord appended to the Resource
Meter, holding the agent name, the task, the image the sandbox ran from,
the terminal outcome and the resource usage consumed. -/
structure InvocationRecord where
  agentName : String
  task : String
  imageHandle : ImageHandle
  outcome : RunOutcome
  resourceUsage : Nat
deriving DecidableEq, Repr

/-- Modelled from the spec: the external collaborators consumed through a
narrow interface — the base runtime version, whether an underlying build of
a given fingerprint succeeds, the terminal outcome of a sandboxed task, and
the resource usage it consumes. -/
structure Env where
  baseVersion : String
  buildOk : Fingerprint → Bool
  outcome : ImageHandle → String → Limits → RunOutcome
  usage : ImageHandle → String → Limits → Nat

/-- Modelled from the spec: the engine state — the Agent Definition Store,
the builder's image cache of fully published fingerprints, the log of
underlying build executions, the handles marked for release, the Resource
Meter's append-only record list, the live sandbox instances and the next
fresh instance id. -/
structure KState where
  store : List (String × AgentRecord)
  cache : List Fingerprint
  buildsExecuted : List Fingerprint
  releasedHandles : List ImageHandle
  meter : List InvocationRecord
  liveSandboxes : List Nat
  nextId : Nat
deriving DecidableEq, Repr

/-! ## Agent Definition Store (spec section 4.1, modelled) -/

/-- Looks a name up in the store. -/
def storeGet (s : List (String × AgentRecord)) (n : String) : Option AgentRecord :=
  (s.find? (fun p => p.1 == n)).map Prod.snd

/-- Create-or-replace on the store's key-value mapping. -/
def storePut (s : List (String × AgentRecord)) (n : String) (r : AgentRecord) :
    List (String × AgentRecord) :=
  (n, r) :: s.filter (fun p => p.1 != n)

/-- Deletes a name from the store. -/
def storeRemove (s : List (String × AgentRecord)) (n : String) :
    List (String × AgentRecord) :=
  s.filter (fun p => p.1 != n)

/-- Modelled from the spec: Store.put on the engine state; put on an
existing name marks any prior ImageHandle for release. -/
def put (st : KState) (n : String) (r : AgentRecord) : KState :=
  let released :=
    match storeGet st.store n with
    | some old =>
      match old.imageHandle with
      | some h => h :: st.releasedHandles
      | none => st.releasedHandles
    | none => st.releasedHandles
  { st with store := storePut st.store n r, releasedHandles := released }

/-! ## Image/Environment Builder (spec section 4.3, modelled) -/

/-- Modelled from the spec: the Image/Environment Builder's build, which is
not among the source files.  It is cache-checked by content fingerprint
before doing any work: on a hit the existing handle is returned with no
underlying build; on a miss one underlying build is executed, and only a
fully successful build publishes a handle into the cache — a failed build
leaves the cache untouched and reports BuildFailed. -/
def build (env : Env) (st : KState) (d : Definition) (deps : List String) :
    Except KError ImageHandle × KState :=
  let fp := fingerprint env.baseVersion d deps
  if fp ∈ st.cache then
    (Except.ok fp, st)
  else
    let st1 := { st with buildsExecuted := fp :: st.buildsExecuted }
    if env.buildOk fp then
      (Except.ok fp, { st1 with cache := fp :: st1.cache })
    else
      (Except.error KError.BuildFailed, st1)

/-! ## Sandbox Lifecycle Manager (spec section 4.4, modelled) -/

namespace SandboxLifecycleManager

/-- Maps a terminal sandbox outcome to the run result per the taxonomy. -/
def outcomeToResult : RunOutcome → Except KError String
  | RunOutcome.success r => Except.ok r
  | RunOutcome.taskError m => Except.error (KError.TaskExecutionError m)
  | RunOutcome.timeout => Except.error KError.Timeout
  | RunOutcome.bootFailure => Except.error KError.BootFailure
  | RunOutcome.cancelled => Except.error KError.Cancelled

/-- Modelled from the spec: SandboxLifecycleManager.run, not among the
source files.  One scoped create-exec-capture-destroy cycle: a fresh
SandboxInstance is allocated, the single task reaches its terminal outcome
chosen by the environment (completion, task error, timeout, boot failure or
cancellation), and the instance is destroyed by the single scoped release
path before the call returns, whatever the outcome. -/
def run (env : Env) (st : KState) (h : ImageHandle) (task : String) (limits : Limits) :
    Except KError String × KState :=
  let id := st.nextId
  let stCreated := { st with nextId := id + 1, liveSandboxes := id :: st.liveSandboxes }
  let oc := env.outcome h task limits
  let stDestroyed := { stCreated with liveSandboxes := stCreated.liveSandboxes.erase id }
  (outcomeToResult oc, stDestroyed)

end SandboxLifecycleManager

/-! ## Execution Dispatcher (spec section 4.5, modelled) -/

/-- Modelled from the spec: the Dispatcher's submit, not among the source
files.  It runs the Dependency Extractor, then the Image/Environment
Builder, then Store.put; extraction failure surfaces DefinitionInvalid
with no state change, a failed build surfaces BuildFailed and stores a
Failed record with no image handle, and a successful or cached build
stores a Built record holding the shared handle. -/
def submit (env : Env) (st : KState) (d : Definition) (name : String)
    (deps : List String) : Except KError String × KState :=
  match extract d with
  | Except.error e => (Except.error e, st)
  | Except.ok refs =>
    match build env st d deps with
    | (Except.ok h, st1) =>
      (Except.ok name,
        put st1 name
          { definition := d, dependencies := deps, modelRefs := refs,
            imageHandle := some h, status := AgentStatus.Built })
    | (Except.error e, st1) =>
      (Except.error e,
        put st1 name
          { definition := d, dependencies := deps, modelRefs := refs,
            imageHandle := none, status := AgentStatus.Failed })

/-- Modelled from the spec: the Dispatcher's invoke, not among the source
files.  Store.get; an unknown name fails with AgentNotFound; a record not
Built fails with AgentNotReady; otherwise the sandbox runs the record's
image handle and an InvocationRecord is appended to the Resource Meter
regardless of the outcome. -/
def invoke (env : Env) (st : KState) (name : String) (task : String)
    (limits : Limits) : Except KError String × KState :=
  match storeGet st.store name with
  | none => (Except.error KError.AgentNotFound, st)
  | some r =>
    match r.status, r.imageHandle with
    | AgentStatus.Built, some h =>
      let res := SandboxLifecycleManager.run env st h task limits
      let entry : InvocationRecord :=
        { agentName := name, task := task, imageHandle := h,
          outcome := env.outcome h task limits,
          resourceUsage := env.usage h task limits }
      (res.1, { res.2 with meter := entry :: res.2.meter })
    | _, _ => (Except.error KError.AgentNotReady, st)

/-- Modelled from the spec: the Dispatcher's remove, not among the source
files.  Store.remove: deletes the record and marks its image handle for
release; returns true when a record existed, false when not found, and
never an error. -/
def remove (st : KState) (name : String) : Bool × KState :=
  match storeGet st.store name with
  | some r =>
    let released :=
      match r.imageHandle with
      | some h => h :: st.releasedHandles
      | none => st.releasedHandles
    (true, { st with store := storeRemove st.store name, releasedHandles := released })
  | none => (false, st)

/-! ## Concrete fixtures -/

/-- The empty engine state. -/
def emptyState : KState :=
  { store := [], cache := [], buildsExecuted := [], releasedHandles := [],
    meter := [], liveSandboxes := [], nextId := 0 }

/-- An environment whose underlying builds all succeed and whose sandboxed
tasks all complete normally. -/
def envOk : Env :=
  { baseVersion := "v", buildOk := fun _ => true,
    outcome := fun _ _ _ => RunOutcome.success "done",
    usage := fun _ _ _ => 1 }

/-- An environment whose underlying builds all fail. -/
def envBad : Env :=
  { baseVersion := "v", buildOk := fun _ => false,
    outcome := fun _ _ _ => RunOutcome.success "done",
    usage := fun _ _ _ => 1 }

/-- An environment whose sandboxed tasks all time out. -/
def envTimeout : Env :=
  { baseVersion := "v", buildOk := fun _ => true,
    outcome := fun _ _ _ => RunOutcome.timeout,
    usage := fun _ _ _ => 7 }

/-- A well-formed definition payload declaring no model references. -/
def defNoRefs : Definition := [1, 0]

/-- A well-formed definition payload declaring the single model
reference a. -/
def defRefA : Definition := [1, 1, 1, 97]

/-- Default limits used by concrete invocations. -/
def limits1 : Limits := { timeoutSeconds := 1, maxMemory := 1 }

/-- The fingerprint of defNoRefs with no dependencies under base version v. -/
def fpA : Fingerprint := ("v", [], [1, 0])

/-- The record stored for a successful submission of defNoRefs. -/
def recA : AgentRecord :=
  { definition := defNoRefs, dependencies := [], modelRefs := [],
    imageHandle := some fpA, status := AgentStatus.Built }

/-- The record stored for a submission whose build failed. -/
def recFailed : AgentRecord :=
  { definition := defNoRefs, dependencies := [], modelRefs := [],
    imageHandle := none, status := AgentStatus.Failed }

/-- A state holding one successfully built agent named agent. -/
def stWithAgent : KState := (submit envOk emptyState defNoRefs "agent" []).2

/-! ## Store lemmas -/

theorem storeGet_storePut_same (s : List (String × AgentRecord)) (n : String)
    (r : AgentRecord) : storeGet (storePut s n r) n = some r := by
  simp [storeGet, storePut]

theorem storeGet_filter_ne (s : List (String × AgentRecord)) (n m : String)
    (h : n ≠ m) : storeGet (s.filter (fun p => p.1 != m)) n = storeGet s n := by
  induction s with
  | nil => rfl
  | cons a s ih =>
    by_cases h1 : a.1 = m
    · have h2 : a.1 ≠ n := fun hc => h (hc.symm.trans h1)
      have hfil : List.filter (fun p => p.1 != m) (a :: s) =
          List.filter (fun p => p.1 != m) s := by
        simp [List.filter_cons, h1]
      rw [hfil, ih]
      simp only [storeGet]
      rw [List.find?_cons_of_neg _ (by simp [h2])]
    · simp only [storeGet, List.filter_cons]
      have h3 : (a.1 != m) = true := by simp [h1]
      rw [h3]
      simp only [if_true]
      by_cases h4 : a.1 = n
      · rw [List.find?_cons_of_pos _ (by simp [h4]), List.find?_cons_of_pos _ (by simp [h4])]
      · rw [List.find?_cons_of_neg _ (by simp [h4]), List.find?_cons_of_neg _ (by simp [h4])]
        exact ih

theorem storeGet_storePut_ne (s : List (String × AgentRecord)) (n m : String)
    (r : AgentRecord) (h : n ≠ m) : storeGet (storePut s m r) n = storeGet s n := by
  simp only [storeGet, storePut]
  rw [List.find?_cons_of_neg _ (by simp; exact fun hc => h hc.symm)]
  exact storeGet_filter_ne s n m h

theorem storeGet_storeRemove_self (s : List (String × AgentRecord)) (n : String) :
    storeGet (storeRemove s n) n = none := by
  induction s with
  | nil => rfl
  | cons a s ih =>
    by_cases h1 : a.1 = n
    · simp only [storeRemove, storeGet, List.filter_cons, h1] at ih ⊢
      simp
    · have h3 : (a.1 != n) = true := by simp [h1]
      simp only [storeRemove, List.filter_cons, h3, if_true]
      simp only [storeGet]
      rw [List.find?_cons_of_neg _ (by simp [h1])]
      exact ih

/-! ## Claim theorems -/

/-- C1: for every invocation of SandboxLifecycleManager.run and for every
outcome chosen by the environment — normal completion, task-level error,
timeout, boot failure or cancellation — the SandboxInstance created for it
is destroyed by the time run returns: the live-sandbox set of the returned
state equals the one of the input state, so no instance survives the call. -/
theorem run_destroys_sandbox (env : Env) (st : KState) (h : ImageHandle)
    (task : String) (limits : Limits) :
    ((SandboxLifecycleManager.run env st h task limits).2).liveSandboxes =
      st.liveSandboxes := by
  simp [SandboxLifecycleManager.run]

/-- C8: remove is total over all names and returns a boolean, never an
error; it returns true exactly when a record for the name existed, false
exactly when none exists, and afterwards the name is gone from the store. -/
theorem remove_total (st : KState) (name : String) :
    ((remove st name).1 = (storeGet st.store name).isSome) ∧
      storeGet ((remove st name).2).store name = none := by
  cases hg : storeGet st.store name with
  | none => simp [remove, hg]
  | some r =>
    refine ⟨by simp [remove, hg], ?_⟩
    simp only [remove, hg]
    exact storeGet_storeRemove_self st.store name

theorem storeGet_remove_self (st : KState) (name : String) :
    storeGet ((remove st name).2).store name = none := by
  cases hg : storeGet st.store name with
  | none => simp [remove, hg]
  | some r =>
    simp only [remove, hg]
    exact storeGet_storeRemove_self st.store name

/-- C3: the Dependency Extractor is deterministic — byte-identical
definition payloads yield identical model-reference sets (extract is a pure
function of the payload alone, so it performs no side effects) — and a
malformed definition, one the schema parser rejects, fails with
DefinitionInvalid rather than returning a guessed set. -/
theorem extract_deterministic :
    (∀ d1 d2 : Definition, d1 = d2 → extract d1 = extract d2) ∧
      ∀ d : Definition, parseDefinition d = none →
        extract d = Except.error KError.DefinitionInvalid := by
  constructor
  · intro d1 d2 hEq
    rw [hEq]
  · intro d hBad
    simp [extract, hBad]

/-- C3 witness: determinism and the DefinitionInvalid rejection evaluated
at concrete payloads. -/
theorem extract_deterministic_witness :
    extract defNoRefs = extract defNoRefs ∧
      extract [9] = Except.error KError.DefinitionInvalid :=
  ⟨extract_deterministic.1 defNoRefs defNoRefs rfl,
   extract_deterministic.2 [9] (by decide)⟩

/-- C4: a submit call whose build fails with BuildFailed leaves the image
cache unchanged — no handle is published for the fingerprint — and the
record stored for the name carries no image handle, so a handle becomes
visible only after a build fully succeeds. -/
theorem build_failed_cache_unchanged (env : Env) (st : KState) (d : Definition)
    (name : String) (deps : List String)
    (hfail : (submit env st d name deps).1 = Except.error KError.BuildFailed) :
    (submit env st d name deps).2.cache = st.cache ∧
      ∀ r : AgentRecord,
        storeGet ((submit env st d name deps).2).store name = some r →
          r.imageHandle = none := by
  cases hp : parseDefinition d with
  | none =>
    have : (submit env st d name deps).1 = Except.error KError.DefinitionInvalid := by
      simp [submit, extract, hp]
    rw [this] at hfail
    exact absurd (Except.error.inj hfail) (by intro hc; cases hc)
  | some refs =>
    have hx : extract d = Except.ok refs := by simp [extract, hp]
    by_cases hc : fingerprint env.baseVersion d deps ∈ st.cache
    · have : (submit env st d name deps).1 = Except.ok name := by
        simp [submit, hx, build, hc]
      rw [this] at hfail
      cases hfail
    · by_cases hb : env.buildOk (fingerprint env.baseVersion d deps) = true
      · have : (submit env st d name deps).1 = Except.ok name := by
          simp [submit, hx, build, hc, hb]
        rw [this] at hfail
        cases hfail
      · constructor
        · simp [submit, hx, build, hc, hb, put, storePut]
        · intro r hr
          have hget2 :
              storeGet ((submit env st d name deps).2).store name =
                some { definition := d, dependencies := deps, modelRefs := refs,
                       imageHandle := none, status := AgentStatus.Failed } := by
            simp [submit, hx, build, hc, hb, put, storeGet_storePut_same]
          have hrr := hget2.symm.trans hr
          injection hrr with hrec
          rw [← hrec]

/-- C4 witness: a concrete failing build leaves the empty cache empty and
stores a record with no image handle. -/
theorem build_failed_cache_unchanged_witness :
    (submit envBad emptyState defNoRefs "a" []).1 = Except.error KError.BuildFailed ∧
      (submit envBad emptyState defNoRefs "a" []).2.cache = emptyState.cache ∧
      recFailed.imageHandle = none :=
  ⟨rfl,
   (build_failed_cache_unchanged envBad emptyState defNoRefs "a" [] rfl).1,
   (build_failed_cache_unchanged envBad emptyState defNoRefs "a" [] rfl).2 recFailed rfl⟩

/-- C6: invoke on a name never submitted — one absent from the store —
fails with AgentNotFound, and invoke on any name directly after remove of
that name, with no intervening submit, also fails with AgentNotFound. -/
theorem invoke_unknown_agentNotFound (env : Env) (st : KState)
    (name task : String) (limits : Limits) :
    (storeGet st.store name = none →
        (invoke env st name task limits).1 = Except.error KError.AgentNotFound) ∧
      (invoke env ((remove st name).2) name task limits).1 =
        Except.error KError.AgentNotFound := by
  constructor
  · intro hnone
    simp [invoke, hnone]
  · simp [invoke, storeGet_remove_self st name]

/-- C6 witness: invoking a never-submitted name, and invoking after a
remove, both fail with AgentNotFound on a concrete state. -/
theorem invoke_unknown_agentNotFound_witness :
    (invoke envOk emptyState "ghost" "t" limits1).1 =
        Except.error KError.AgentNotFound ∧
      (invoke envOk ((remove emptyState "ghost").2) "ghost" "t" limits1).1 =
        Except.error KError.AgentNotFound :=
  ⟨(invoke_unknown_agentNotFound envOk emptyState "ghost" "t" limits1).1 rfl,
   (invoke_unknown_agentNotFound envOk emptyState "ghost" "t" limits1).2⟩

/-- C7: every invoke that reaches the sandbox run — the looked-up record is
Built and holds an image handle — appends an InvocationRecord with its
resource usage to the Resource Meter, whatever terminal outcome the
environment produces: success, task error, timeout or boot failure alike. -/
theorem invoke_always_metered (env : Env) (st : KState) (name task : String)
    (limits : Limits) (r : AgentRecord) (h : ImageHandle)
    (hget : storeGet st.store name = some r)
    (hstatus : r.status = AgentStatus.Built)
    (hhandle : r.imageHandle = some h) :
    ((invoke env st name task limits).2).meter =
      { agentName := name, task := task, imageHandle := h,
        outcome := env.outcome h task limits,
        resourceUsage := env.usage h task limits } :: st.meter := by
  simp [invoke, hget, hstatus, hhandle, SandboxLifecycleManager.run]

/-- C7 witness: a concrete invocation that times out is still appended to
the meter together with its recorded resource usage. -/
theorem invoke_always_metered_witness :
    storeGet stWithAgent.store "agent" = some recA ∧
      ((invoke envTimeout stWithAgent "agent" "t" limits1).2).meter =
        { agentName := "agent", task := "t", imageHandle := fpA,
          outcome := RunOutcome.timeout,
          resourceUsage := 7 } :: stWithAgent.meter :=
  ⟨rfl,
   invoke_always_metered envTimeout stWithAgent "agent" "t" limits1 recA fpA
     rfl rfl rfl⟩

/-- C2: two submit calls whose definition and dependencies are
byte-identical compute the same content fingerprint, so — once the
underlying build succeeds — both calls succeed, both stored AgentRecords
hold the one shared image handle of that fingerprint, and at most one
underlying build is executed across the two calls: the second call is a
cache hit. -/
theorem submit_coalesces (env : Env) (st : KState) (d : Definition)
    (n1 n2 : String) (deps : List String) (refs : List ModelRef)
    (hp : parseDefinition d = some refs)
    (hb : env.buildOk (fingerprint env.baseVersion d deps) = true)
    (hne : n1 ≠ n2) :
    (submit env st d n1 deps).1 = Except.ok n1 ∧
      (submit env (submit env st d n1 deps).2 d n2 deps).1 = Except.ok n2 ∧
      storeGet ((submit env (submit env st d n1 deps).2 d n2 deps).2).store n1 =
        some { definition := d, dependencies := deps, modelRefs := refs,
               imageHandle := some (fingerprint env.baseVersion d deps),
               status := AgentStatus.Built } ∧
      storeGet ((submit env (submit env st d n1 deps).2 d n2 deps).2).store n2 =
        some { definition := d, dependencies := deps, modelRefs := refs,
               imageHandle := some (fingerprint env.baseVersion d deps),
               status := AgentStatus.Built } ∧
      ((submit env (submit env st d n1 deps).2 d n2 deps).2).buildsExecuted.length ≤
        st.buildsExecuted.length + 1 := by
  have hx : extract d = Except.ok refs := by simp [extract, hp]
  by_cases hc : fingerprint env.baseVersion d deps ∈ st.cache
  · have h1 : submit env st d n1 deps =
        (Except.ok n1, put st n1
          { definition := d, dependencies := deps, modelRefs := refs,
            imageHandle := some (fingerprint env.baseVersion d deps),
            status := AgentStatus.Built }) := by
      simp [submit, hx, build, hc]
    have h2 : submit env (submit env st d n1 deps).2 d n2 deps =
        (Except.ok n2, put (submit env st d n1 deps).2 n2
          { definition := d, dependencies := deps, modelRefs := refs,
            imageHandle := some (fingerprint env.baseVersion d deps),
            status := AgentStatus.Built }) := by
      rw [h1]
      simp [submit, hx, build, put, hc]
    refine ⟨by rw [h1], by rw [h2], ?_, ?_, ?_⟩
    · rw [h2, h1]
      simp only [put]
      rw [storeGet_storePut_ne _ _ _ _ hne, storeGet_storePut_same]
    · rw [h2]
      simp only [put]
      rw [storeGet_storePut_same]
    · rw [h2, h1]
      simp [put]
  · have h1 : submit env st d n1 deps =
        (Except.ok n1, put { st with
            buildsExecuted := fingerprint env.baseVersion d deps :: st.buildsExecuted,
            cache := fingerprint env.baseVersion d deps :: st.cache } n1
          { definition := d, dependencies := deps, modelRefs := refs,
            imageHandle := some (fingerprint env.baseVersion d deps),
            status := AgentStatus.Built }) := by
      simp [submit, hx, build, hc, hb]
    have h2 : submit env (submit env st d n1 deps).2 d n2 deps =
        (Except.ok n2, put (submit env st d n1 deps).2 n2
          { definition := d, dependencies := deps, modelRefs := refs,
            imageHandle := some (fingerprint env.baseVersion d deps),
            status := AgentStatus.Built }) := by
      rw [h1]
      simp [submit, hx, build, put]
    refine ⟨by rw [h1], by rw [h2], ?_, ?_, ?_⟩
    · rw [h2, h1]
      simp only [put]
      rw [storeGet_storePut_ne _ _ _ _ hne, storeGet_storePut_same]
    · rw [h2]
      simp only [put]
      rw [storeGet_storePut_same]
    · rw [h2, h1]
      simp [put]

/-- C2 witness: two concrete identical submissions from the empty state
both succeed, share one handle, and execute exactly one underlying build. -/
theorem submit_coalesces_witness :
    (submit envOk emptyState defNoRefs "a" []).1 = Except.ok "a" ∧
      (submit envOk (submit envOk emptyState defNoRefs "a" []).2 defNoRefs "b" []).1 =
        Except.ok "b" ∧
      storeGet ((submit envOk (submit envOk emptyState defNoRefs "a" []).2
          defNoRefs "b" []).2).store "a" =
        some { definition := defNoRefs, dependencies := [], modelRefs := [],
               imageHandle := some (fingerprint envOk.baseVersion defNoRefs []),
               status := AgentStatus.Built } ∧
      storeGet ((submit envOk (submit envOk emptyState defNoRefs "a" []).2
          defNoRefs "b" []).2).store "b" =
        some { definition := defNoRefs, dependencies := [], modelRefs := [],
               imageHandle := some (fingerprint envOk.baseVersion defNoRefs []),
               status := AgentStatus.Built } ∧
      ((submit envOk (submit envOk emptyState defNoRefs "a" []).2
          defNoRefs "b" []).2).buildsExecuted.length ≤
        emptyState.buildsExecuted.length + 1 :=
  submit_coalesces envOk emptyState defNoRefs "a" "b" [] [] (by decide) rfl (by decide)

/-- C5: re-submitting an existing name with a different definition replaces
the record — the store afterwards holds the new definition, Built, with the
new fingerprint's handle — marks the old image handle for release, and any
invoke issued after the re-submit runs the sandbox from the new handle,
whose definition bytes are the new definition and never the old one. -/
theorem resubmit_replaces (env : Env) (st : KState) (name : String)
    (dNew : Definition) (depsNew : List String) (refsNew : List ModelRef)
    (rOld : AgentRecord) (hOld : ImageHandle)
    (hget : storeGet st.store name = some rOld)
    (hOldHandle : rOld.imageHandle = some hOld)
    (hp : parseDefinition dNew = some refsNew)
    (hb : env.buildOk (fingerprint env.baseVersion dNew depsNew) = true)
    (hdiff : dNew ≠ rOld.definition)
    (hOldDef : hOld.2.2 = rOld.definition) :
    storeGet ((submit env st dNew name depsNew).2).store name =
        some { definition := dNew, dependencies := depsNew, modelRefs := refsNew,
               imageHandle := some (fingerprint env.baseVersion dNew depsNew),
               status := AgentStatus.Built } ∧
      hOld ∈ ((submit env st dNew name depsNew).2).releasedHandles ∧
      fingerprint env.baseVersion dNew depsNew ≠ hOld ∧
      ∀ task limits, ∃ e : InvocationRecord,
        ((invoke env (submit env st dNew name depsNew).2 name task limits).2).meter =
            e :: ((submit env st dNew name depsNew).2).meter ∧
          e.imageHandle = fingerprint env.baseVersion dNew depsNew ∧
          e.imageHandle.2.2 = dNew := by
  have hx : extract dNew = Except.ok refsNew := by simp [extract, hp]
  have hAstore : ((submit env st dNew name depsNew).2).store =
      storePut st.store name
        { definition := dNew, dependencies := depsNew, modelRefs := refsNew,
          imageHandle := some (fingerprint env.baseVersion dNew depsNew),
          status := AgentStatus.Built } := by
    by_cases hc : fingerprint env.baseVersion dNew depsNew ∈ st.cache <;>
      simp [submit, hx, build, hc, hb, put, hget, hOldHandle]
  have hArel : ((submit env st dNew name depsNew).2).releasedHandles =
      hOld :: st.releasedHandles := by
    by_cases hc : fingerprint env.baseVersion dNew depsNew ∈ st.cache <;>
      simp [submit, hx, build, hc, hb, put, hget, hOldHandle]
  have hstore : storeGet ((submit env st dNew name depsNew).2).store name =
      some { definition := dNew, dependencies := depsNew, modelRefs := refsNew,
             imageHandle := some (fingerprint env.baseVersion dNew depsNew),
             status := AgentStatus.Built } := by
    rw [hAstore]
    exact storeGet_storePut_same _ _ _
  refine ⟨hstore, ?_, ?_, ?_⟩
  · rw [hArel]
    exact List.mem_cons_self _ _
  · intro heq
    apply hdiff
    have h2 : (fingerprint env.baseVersion dNew depsNew).2.2 = rOld.definition := by
      rw [heq]
      exact hOldDef
    simpa [fingerprint] using h2
  · intro task limits
    refine ⟨{ agentName := name, task := task,
              imageHandle := fingerprint env.baseVersion dNew depsNew,
              outcome := env.outcome (fingerprint env.baseVersion dNew depsNew) task limits,
              resourceUsage := env.usage (fingerprint env.baseVersion dNew depsNew) task limits },
            ?_, rfl, rfl⟩
    simp [invoke, hstore, SandboxLifecycleManager.run]

/-- C5 witness: a concrete re-submission of agent with a new definition,
evaluated end to end: replaced record, released old handle, distinct new
handle, and an invocation metered against the new image. -/
theorem resubmit_replaces_witness :
    storeGet ((submit envOk stWithAgent defRefA "agent" []).2).store "agent" =
        some { definition := defRefA, dependencies := [], modelRefs := ["a"],
               imageHandle := some (fingerprint envOk.baseVersion defRefA []),
               status := AgentStatus.Built } ∧
      fpA ∈ ((submit envOk stWithAgent defRefA "agent" []).2).releasedHandles ∧
      fingerprint envOk.baseVersion defRefA [] ≠ fpA ∧
      ∃ e : InvocationRecord,
        ((invoke envOk (submit envOk stWithAgent defRefA "agent" []).2
            "agent" "t" limits1).2).meter =
            e :: ((submit envOk stWithAgent defRefA "agent" []).2).meter ∧
          e.imageHandle = fingerprint envOk.baseVersion defRefA [] ∧
          e.imageHandle.2.2 = defRefA := by
  have h := resubmit_replaces envOk stWithAgent "agent" defRefA [] ["a"] recA fpA
    rfl rfl (by decide) rfl (by decide) rfl
  exact ⟨h.1, h.2.1, h.2.2.1, h.2.2.2 "t" limits1⟩

theorem filter_dependenciesInstall (deps : List String) :
    (dependenciesInstall deps).filter isModelNameLabel = [] := by
  simp [dependenciesInstall, List.filter_map, isModelNameLabel]

/-- C9: every rendered agent Dockerfile carries exactly one model-name
label — filtering the instruction list for kratos.model_name labels yields
the single label with the one substituted model name — whatever extra
dependencies are declared, so each built environment is bound to one model
reference. -/
theorem dockerfile_single_model_label (m : String) (deps : List String) :
    (renderDockerfile m deps).filter isModelNameLabel =
      [DockerInstr.label "kratos.model_name" m] := by
  simp [renderDockerfile, List.filter_append, filter_dependenciesInstall,
    isModelNameLabel, basePackagesCmd]

theorem get_dependenciesInstall (deps : List String) (i : Nat) (d : String)
    (tail2 : List DockerInstr) (hi : deps.get? i = some d) :
    ((dependenciesInstall deps) ++ tail2).get? i =
      some (DockerInstr.run ("uv add " ++ d)) := by
  induction deps generalizing i with
  | nil => cases i <;> simp at hi
  | cons x xs ih =>
    cases i with
    | zero =>
      simp only [List.get?] at hi
      injection hi with hxd
      rw [← hxd]
      rfl
    | succ i => exact ih i hi

/-- C10: every rendered agent Dockerfile installs the fixed base packages
agno, cloudpickle, openai and lmstudio at position 4, before and
independently of the declared dependencies, and each declared dependency
gets its own install instruction at a strictly later position: declared
dependencies are added on top of, never instead of, the base set. -/
theorem dockerfile_base_packages (m : String) (deps : List String) :
    (renderDockerfile m deps).get? 4 =
        some (DockerInstr.run "uv add agno cloudpickle openai lmstudio") ∧
      ∀ d ∈ deps, ∃ k, 5 ≤ k ∧
        (renderDockerfile m deps).get? k =
          some (DockerInstr.run ("uv add " ++ d)) := by
  constructor
  · rfl
  · intro d hd
    obtain ⟨i, hi⟩ := List.get?_of_mem hd
    refine ⟨i + 5, by omega, ?_⟩
    show ((dependenciesInstall deps) ++
        [ DockerInstr.copy "agent.pkl" "/workdir/agent.pkl",
          DockerInstr.copy "execute.py" "/workdir/execute.py",
          DockerInstr.label "kratos.model_name" m,
          DockerInstr.entrypoint ["uv", "run", "python", "/workdir/execute.py"] ]).get? i =
      some (DockerInstr.run ("uv add " ++ d))
    exact get_dependenciesInstall deps i d _ hi

/-- C10 witness: a concrete rendering with one declared dependency shows
the base install at position 4 and the dependency installed later. -/
theorem dockerfile_base_packages_witness :
    (renderDockerfile "qwen" ["yfinance"]).get? 4 =
        some (DockerInstr.run "uv add agno cloudpickle openai lmstudio") ∧
      ∃ k, 5 ≤ k ∧
        (renderDockerfile "qwen" ["yfinance"]).get? k =
          some (DockerInstr.run ("uv add " ++ "yfinance")) :=
  ⟨(dockerfile_base_packages "qwen" ["yfinance"]).1,
   (dockerfile_base_packages "qwen" ["yfinance"]).2 "yfinance" (by simp)⟩

end Kratos
